import Mathlib

/-!
Shallow embedding of the hybrid retrieval and ingestion pipeline of the
MCP-Server repository (TypeScript), together with proofs about it.

Sources embedded here:
- `src/tools/local-embedding-tools.ts` / `src/tools/google-embedding-tools.ts`
  (`chunkText`, `handleChunkAndEmbed`, `handleHybridSearch`)
- `dist/db/mongodb-client.js`
  (`vectorSearch`, `textSearch`, `textSearchFallback`, `hybridSearch`)
- `src/services/embedding-service.ts` (`calculateSimilarity`)
- `src/tools/document-tools.ts` (`handleSearchDocuments`)

Modelling conventions:
- JavaScript numbers are modelled as exact rationals (`ℚ`); the similarity
  computation, which takes square roots, is modelled over `ℝ`.
- MongoDB collaborator calls (aggregation stages executed by the storage
  engine, collection scans) are oracles supplied in a `Storage` record;
  a call that throws is an `Except.error`.
- Document ids are strings with value equality, following the repository's
  own interface declaration `_id?: string` in `src/db/mongodb-client.ts`.
- JavaScript strings are modelled through their character lists; only the
  ASCII whitespace characters relevant to the repository's inputs are
  treated as whitespace.
-/

namespace MCP

/-! ## JavaScript string primitives -/

/-- Whitespace test used by the `\s` regex class (ASCII part). -/
def jsWhite (c : Char) : Bool :=
  c = ' ' || c = '\t' || c = '\n' || c = '\r'

/-- Maximal runs of non-whitespace characters, in order. -/
def wsRuns (acc : List Char) : List Char → List (List Char)
  | [] => if acc.isEmpty then [] else [acc.reverse]
  | c :: rest =>
    if jsWhite c then
      if acc.isEmpty then wsRuns [] rest else acc.reverse :: wsRuns [] rest
    else wsRuns (c :: acc) rest

/-- JavaScript `text.split(/\s+/)`: splits on maximal whitespace runs; a
leading (resp. trailing) whitespace run contributes a leading (resp.
trailing) empty string, and `"".split(/\s+/)` is `[""]`. -/
def jsSplitWs (s : String) : List String :=
  match s.data with
  | [] => [""]
  | c :: rest =>
    let l := c :: rest
    (if jsWhite c then [""] else []) ++
      (wsRuns [] l).map String.mk ++
      (if jsWhite (l.getLastD c) then [""] else [])

/-- JavaScript `Array.prototype.join(" ")`. -/
def joinSpace (ws : List String) : String := String.intercalate " " ws

/-- JavaScript `String.prototype.trim` (ASCII whitespace). -/
def jsTrim (s : String) : String :=
  String.mk (((s.data.dropWhile jsWhite).reverse.dropWhile jsWhite).reverse)

/-! ## TextChunker (`chunkText` in local-embedding-tools.ts and
google-embedding-tools.ts; both copies are identical) -/

/-- The emission filter of `chunkText`: `chunk.trim().length > 50`. -/
def meaningful (chunk : String) : Bool := 50 < (jsTrim chunk).length

/-- Body of the `for (let i = 0; i < words.length; i += chunkSize - overlap)`
loop of `chunkText`, for a positive step.  Each recursive call performs one
loop-guard check; `fuel` bounds the number of checks.  With `step ≥ 1` the
loop performs at most `words.length` iterations, so any
`fuel ≥ words.length + 1` computes the exact loop result. -/
def chunkGo (words : List String) (chunkSize step : ℕ) (keep : String → Bool) :
    ℕ → ℕ → List String
  | 0, _ => []
  | fuel + 1, i =>
    if i < words.length then
      let chunk := joinSpace ((words.drop i).take chunkSize)
      (if keep chunk then [chunk] else []) ++
        chunkGo words chunkSize step keep fuel (i + step)
    else []

/-- `chunkText` with the emission filter as a parameter (the source
hard-codes `meaningful`; the spec discusses the filter-disabled variant).
Faithful to the source only when `overlap < chunkSize`; the source loop
does not terminate otherwise (see `chunkIdx` below). -/
def chunkTextWith (keep : String → Bool) (text : String)
    (chunkSize overlap : ℕ) : List String :=
  let words := jsSplitWs text
  chunkGo words chunkSize (chunkSize - overlap) keep (words.length + 1) 0

/-- `chunkText(text, chunkSize = 500, overlap = 100)` from
local-embedding-tools.ts / google-embedding-tools.ts. -/
def chunkText (text : String) (chunkSize : ℕ := 500) (overlap : ℕ := 100) :
    List String :=
  chunkTextWith meaningful text chunkSize overlap

/-- The loop index of `chunkText`'s `for` loop after `n` iterations:
`i` starts at `0` and the update is `i += chunkSize - overlap` (a JavaScript
number, so modelled over `ℤ`). -/
def chunkIdx (step : ℤ) : ℕ → ℤ
  | 0 => 0
  | n + 1 => chunkIdx step n + step

/-- The source loop `for (let i = 0; i < words.length; i += step)` exits iff
the guard fails after some number of iterations.  Nothing in the loop body
changes `i` or `words`, so this captures termination of `chunkText`. -/
def chunkTextTerminates (text : String) (chunkSize overlap : ℤ) : Prop :=
  ∃ n : ℕ, ¬ (chunkIdx (chunkSize - overlap) n < ((jsSplitWs text).length : ℤ))

/-! ## Data model (`src/db/mongodb-client.ts` interfaces) -/

/-- `MedicalEntity` from mongodb-client.ts (the `end` field is renamed
`endPos`, `end` being a Lean keyword). -/
structure MedicalEntity where
  text : String
  label : String
  confidence : ℚ
  start : ℕ
  endPos : ℕ
  deriving DecidableEq

/-- The metadata fields that the search paths read (equality filters).
`uploadedAt` timestamps are opaque integers. -/
structure DocMetadata where
  patientId : Option String := none
  documentType : Option String := none
  uploadedAt : Option ℤ := none
  deriving DecidableEq

/-- `MedicalDocument` from mongodb-client.ts.  Ids are strings with value
equality, per the interface declaration `_id?: string`. -/
structure MedicalDocument where
  _id : String
  title : String
  content : String
  embedding : Option (List ℚ) := none
  medicalEntities : List MedicalEntity := []
  metadata : DocMetadata := {}
  deriving DecidableEq

/-- `SearchResult` from mongodb-client.ts. -/
structure SearchResult where
  document : MedicalDocument
  score : ℚ
  relevantEntities : List MedicalEntity
  deriving DecidableEq

/-- A document together with the `score` field added by the
`$addFields: score` aggregation stage. -/
structure ScoredDoc where
  doc : MedicalDocument
  score : ℚ
  deriving DecidableEq

/-- The recognized keys of the dynamic `filter` record
(`metadata.patientId`, `metadata.documentType`, `metadata.uploadedAt`). -/
structure SearchFilter where
  patientId : Option String := none
  documentType : Option String := none
  uploadedAt : Option ℤ := none
  deriving DecidableEq

/-- JavaScript truthiness of an optional string filter value:
`if (filter['…'])` skips both absent keys and the empty string. -/
def truthyStr : Option String → Option String
  | some "" => none
  | o => o

/-- JavaScript `x || d` for numbers: `0` is falsy. -/
def jsOr (x d : ℚ) : ℚ := if x = 0 then d else x

/-- JavaScript `x || d` for an optional numeric argument (`undefined` and
`0` both yield the default). -/
def jsOrNat (x : Option ℕ) (d : ℕ) : ℕ :=
  match x with
  | some n => if n = 0 then d else n
  | none => d

/-- `jsOr` for an optional rational argument. -/
def jsOrQ (x : Option ℚ) (d : ℚ) : ℚ :=
  match x with
  | some q => jsOr q d
  | none => d

/-- The `$match` conditions built by `vectorSearch` (all three recognized
keys). -/
def matchesVectorFilter (f : SearchFilter) (d : MedicalDocument) : Bool :=
  (match truthyStr f.patientId with
   | some p => d.metadata.patientId == some p
   | none => true) &&
  (match truthyStr f.documentType with
   | some t => d.metadata.documentType == some t
   | none => true) &&
  (match f.uploadedAt with
   | some ts => d.metadata.uploadedAt == some ts
   | none => true)

/-- The `$match` conditions built by `textSearch` (only `patientId` and
`documentType`). -/
def matchesTextFilter (f : SearchFilter) (d : MedicalDocument) : Bool :=
  (match truthyStr f.patientId with
   | some p => d.metadata.patientId == some p
   | none => true) &&
  (match truthyStr f.documentType with
   | some t => d.metadata.documentType == some t
   | none => true)

/-- Case-insensitive substring containment: models the
`{ $regex: query, $options: 'i' }` conditions of `textSearchFallback` for a
metacharacter-free query.  The empty pattern matches every string. -/
def infixOfB (pat : List Char) : List Char → Bool
  | [] => pat.isEmpty
  | c :: rest => pat.isPrefixOf (c :: rest) || infixOfB pat rest

/-- Case-insensitive containment on strings. -/
def ciContains (hay pat : String) : Bool :=
  infixOfB (pat.data.map Char.toLower) (hay.data.map Char.toLower)

/-- The storage collaborator as `dist/db/mongodb-client.js` sees it.  Each
field is the outcome of one kind of MongoDB round trip; `Except.error`
models the driver call throwing. -/
structure Storage where
  /-- Outcome of the `$vectorSearch` + `$addFields score` stages:
  arguments are (queryVector, numCandidates, limit of the stage). -/
  vsAgg : List ℚ → ℕ → ℕ → Except String (List ScoredDoc)
  /-- Outcome of the `$search` + `$addFields score` stages for a text
  query over `["title", "content"]`. -/
  tsAgg : String → Except String (List ScoredDoc)
  /-- Outcome of scanning the documents collection with `find()` (the
  regex matching itself is modelled in-process by `ciContains`). -/
  collectionFind : Except String (List MedicalDocument)
  /-- Models an exception escaping into `hybridSearch`'s own catch. -/
  hybridCrash : Bool := false

/-- `MongoDBClient.textSearchFallback(query, limit)`: regex scan over title
and content with fixed score `0.3`; returns `[]` if the find itself
throws.  Total by construction (never throws). -/
def textSearchFallback (st : Storage) (query : String) (limit : ℕ) :
    List SearchResult :=
  match st.collectionFind with
  | .ok docs =>
    ((docs.filter
        (fun d => ciContains d.title query || ciContains d.content query)).take
          limit).map
      (fun d => ⟨d, 0.3, d.medicalEntities⟩)
  | .error _ => []

/-- `MongoDBClient.vectorSearch(queryEmbedding, limit = 10,
threshold = 0.7, filter?)` from dist/db/mongodb-client.js: storage ANN
stage with `numCandidates = max(limit*10, 100)` and stage limit
`limit*2`, then the optional equality `$match`, then
`$match score >= threshold`, then `$limit limit`; on any failure it falls
back to `textSearchFallback('', limit)` — note the empty string, not a
query. -/
def vectorSearch (st : Storage) (queryEmbedding : List ℚ) (limit : ℕ := 10)
    (threshold : ℚ := 0.7) (filter : Option SearchFilter := none) :
    List SearchResult :=
  match st.vsAgg queryEmbedding (max (limit * 10) 100) (limit * 2) with
  | .ok cands =>
    let afterFilter : List ScoredDoc :=
      match filter with
      | some f => cands.filter (fun c => matchesVectorFilter f c.doc)
      | none => cands
    (((afterFilter.filter (fun c => threshold ≤ c.score)).take limit).map
      (fun c => ⟨c.doc, jsOr c.score 0, c.doc.medicalEntities⟩))
  | .error _ => textSearchFallback st "" limit

/-- `MongoDBClient.textSearch(query, limit = 10, filter?)` from
dist/db/mongodb-client.js: `$search` stage, optional equality `$match`
(two keys), `$limit limit` (no threshold), scores mapped through
`doc.score || 0.5`; on failure falls back to
`textSearchFallback(query, limit)`. -/
def textSearch (st : Storage) (query : String) (limit : ℕ := 10)
    (filter : Option SearchFilter := none) : List SearchResult :=
  match st.tsAgg query with
  | .ok cands =>
    let afterFilter : List ScoredDoc :=
      match filter with
      | some f => cands.filter (fun c => matchesTextFilter f c.doc)
      | none => cands
    ((afterFilter.take limit).map
      (fun c => ⟨c.doc, jsOr c.score 0.5, c.doc.medicalEntities⟩))
  | .error _ => textSearchFallback st query limit

/-! ## Hybrid fusion (`MongoDBClient.hybridSearch`) -/

/-- The fusion map: a JavaScript `Map` keyed by document id, modelled as an
insertion-ordered association list. -/
abbrev ResultMap := List (String × SearchResult)

/-- `Map.prototype.set`: replace in place if the key is present (keys are
never duplicated, so replacing the first occurrence is replacement),
append otherwise. -/
def mapSet : ResultMap → String → SearchResult → ResultMap
  | [], k, v => [(k, v)]
  | p :: rest, k, v =>
    if p.1 == k then (k, v) :: rest else p :: mapSet rest k v

/-- `Map.prototype.get` on the association list. -/
def alookup (m : ResultMap) (k : String) : Option SearchResult :=
  (m.find? (fun p => p.1 == k)).map (·.2)

/-- Seeding pass of `hybridSearch`: each vector result is stored under its
document id with a vector-weighted score. -/
def seedVector (vw : ℚ) (vr : List SearchResult) : ResultMap :=
  vr.foldl
    (fun m r => mapSet m r.document._id { r with score := r.score * vw }) []

/-- Merge pass of `hybridSearch`: a text result boosts an existing entry by
`score * textWeight` (scores add), or is inserted text-weighted. -/
def mergeText (tw : ℚ) (tr : List SearchResult) (m : ResultMap) : ResultMap :=
  tr.foldl
    (fun m r =>
      match alookup m r.document._id with
      | some ex =>
        mapSet m r.document._id { ex with score := ex.score + r.score * tw }
      | none => mapSet m r.document._id { r with score := r.score * tw })
    m

/-- Fusion tail of `hybridSearch`: map values sorted by descending score
(JavaScript's stable sort with comparator `(a, b) => b.score - a.score`,
modelled by the stable `insertionSort`) and truncated to `limit`. -/
def hybridFuse (vr tr : List SearchResult) (vw tw : ℚ) (limit : ℕ) :
    List SearchResult :=
  (((mergeText tw tr (seedVector vw vr)).map Prod.snd).insertionSort
      (fun a b => b.score ≤ a.score)).take limit

/-- `⌈n * a / b⌉` on naturals, for `Math.ceil(limit * 0.7)` and
`Math.ceil(limit * 0.5)`. -/
def ceilFrac (a b n : ℕ) : ℕ := (a * n + (b - 1)) / b

/-- `MongoDBClient.hybridSearch(query, queryEmbedding, limit = 10,
vectorWeight = 0.7, textWeight = 0.3, filter?)`: runs vector search at
`ceil(limit*0.7)` with threshold `0.1` and text search at
`ceil(limit*0.5)`, then fuses; if an exception escapes the body, degrades
to vector-only search at threshold `0.5`. -/
def hybridSearch (st : Storage) (query : String) (queryEmbedding : List ℚ)
    (limit : ℕ := 10) (vectorWeight : ℚ := 0.7) (textWeight : ℚ := 0.3)
    (filter : Option SearchFilter := none) : List SearchResult :=
  if st.hybridCrash then vectorSearch st queryEmbedding limit 0.5 filter
  else
    let vectorResults :=
      vectorSearch st queryEmbedding (ceilFrac 7 10 limit) 0.1 filter
    let textResults := textSearch st query (ceilFrac 5 10 limit) filter
    hybridFuse vectorResults textResults vectorWeight textWeight limit

/-- The threshold post-filter of
`GoogleEmbeddingTools.handleHybridSearch`: the handler calls
`hybridSearch` (threshold-independent) and keeps `score >= threshold`. -/
def hybridHandlerFiltered (st : Storage) (query : String)
    (queryEmbedding : List ℚ) (topK : ℕ) (vw tw threshold : ℚ)
    (filter : Option SearchFilter) : List SearchResult :=
  (hybridSearch st query queryEmbedding topK vw tw filter).filter
    (fun r => threshold ≤ r.score)

/-! ## EmbeddingService.calculateSimilarity
(`src/services/embedding-service.ts`; the copy in
local-embedding-service.ts is identical) -/

/-- The accumulation loop of `calculateSimilarity`: for two equal-length
vectors it computes `Σ v[i]*w[i]` (also used as `Σ v[i]²` with `w = v`). -/
def dotList (v w : List ℝ) : ℝ := (List.zipWith (fun a b => a * b) v w).sum

/-- `EmbeddingService.calculateSimilarity(embedding1, embedding2)`: throws
on a dimension mismatch, otherwise returns
`dot / (sqrt(norm1) * sqrt(norm2))`. -/
noncomputable def calculateSimilarity (embedding1 embedding2 : List ℝ) :
    Except String ℝ :=
  if embedding1.length ≠ embedding2.length then
    .error "Embeddings must have the same dimensions"
  else
    .ok (dotList embedding1 embedding2 /
      (Real.sqrt (dotList embedding1 embedding1) *
        Real.sqrt (dotList embedding2 embedding2)))

/-! ## Chunked ingestion
(`handleChunkAndEmbed` in local-embedding-tools.ts; the Google variant
differs only in the embedding collaborator and reported model name) -/

/-- A persisted chunk document (the `createdAt`/model-name metadata, which
carries no logic, is elided). -/
structure ChunkDoc where
  chunkIndex : ℕ
  totalChunks : ℕ
  text : String
  embedding : List ℚ
  wordCount : ℕ
  deriving DecidableEq

/-- The JSON envelope of `handleChunkAndEmbed` (fields not present on an
error envelope are zero/empty). -/
structure ChunkEmbedResponse where
  success : Bool
  error : Option String := none
  totalChunks : ℕ := 0
  successfulChunks : ℕ := 0
  chunkIds : List String := []
  deriving DecidableEq

/-- The per-chunk loop of `handleChunkAndEmbed`.  `embed i` is the outcome
of the i-th embedding call (`none` models the call throwing); a failed
chunk is skipped, a successful one is counted, its generated id recorded
and its chunk document persisted.  Returns
(successfulChunks, chunkIds, persisted documents). -/
def chunkLoop (embed : ℕ → Option (List ℚ)) (total : ℕ) :
    List String → ℕ → ℕ × List String × List ChunkDoc
  | [], _ => (0, [], [])
  | chunk :: rest, i =>
    match embed i with
    | some emb =>
      let out := chunkLoop embed total rest (i + 1)
      (out.1 + 1, ("chunk-" ++ toString i) :: out.2.1,
        { chunkIndex := i, totalChunks := total, text := chunk,
          embedding := emb,
          wordCount := (jsSplitWs chunk).length } :: out.2.2)
    | none => chunkLoop embed total rest (i + 1)

/-- `handleChunkAndEmbed(args)`: rejects text shorter than 100 characters,
applies the `|| 500` / `|| 100` defaults, chunks, then runs the per-chunk
loop; the envelope always reports `success: true` with
`totalChunks`/`successfulChunks`/`chunkIds` on the normal path.  Returns
the envelope together with the list of persisted chunk documents. -/
def handleChunkAndEmbed (embed : ℕ → Option (List ℚ)) (text : String)
    (chunkSizeArg overlapArg : Option ℕ) :
    ChunkEmbedResponse × List ChunkDoc :=
  if text.length < 100 then
    ({ success := false,
       error := some "Text must be at least 100 characters long" }, [])
  else
    let chunkSize := jsOrNat chunkSizeArg 500
    let overlap := jsOrNat overlapArg 100
    let chunks := chunkText text chunkSize overlap
    let out := chunkLoop embed chunks.length chunks 0
    ({ success := true, totalChunks := chunks.length,
       successfulChunks := out.1, chunkIds := out.2.1 }, out.2.2)

/-! ## DocumentTools.handleSearchDocuments
(`src/tools/document-tools.ts`) -/

/-- A formatted entry of the search response: truncated content, entity
list capped at 5. -/
structure FormattedResult where
  id : String
  title : String
  content : String
  score : ℚ
  relevantEntities : List MedicalEntity
  deriving DecidableEq

/-- The JSON envelope of `handleSearchDocuments`. -/
structure SearchResponse where
  success : Bool
  error : Option String := none
  message : Option String := none
  resultsCount : ℕ := 0
  results : List FormattedResult := []
  deriving DecidableEq

/-- `content.substring(0, 500) + (content.length > 500 ? '...' : '')`. -/
def truncate500 (s : String) : String :=
  String.mk (s.data.take 500) ++ (if 500 < s.length then "..." else "")

/-- The per-result formatting of `handleSearchDocuments`:
`relevantEntities` is capped by `.slice(0, 5)`. -/
def formatResult (r : SearchResult) : FormattedResult :=
  { id := r.document._id, title := r.document.title,
    content := truncate500 r.document.content, score := r.score,
    relevantEntities := r.relevantEntities.take 5 }

/-- The collaborator calls `handleSearchDocuments` performs, as the handler
sees them (each may reject, modelled by `Except.error`). -/
structure SearchToolDeps where
  /-- `mongoClient.countDocuments()` -/
  countDocuments : Except String ℕ
  /-- `mongoClient.countDocuments({ embedding: { $exists: true } })` -/
  countWithEmbeddings : Except String ℕ
  /-- `embeddingService.generateQueryEmbedding(query)` -/
  generateQueryEmbedding : String → Except String (List ℚ)
  /-- `mongoClient.vectorSearch(queryEmbedding, limit, threshold, filter)` -/
  vectorSearchCall :
    List ℚ → ℕ → ℚ → SearchFilter → Except String (List SearchResult)
  /-- `mongoClient.textSearch(query, limit, filter)` -/
  textSearchCall : String → ℕ → SearchFilter → Except String (List SearchResult)
  /-- `mongoClient.findDocuments(filter, limit)` -/
  findDocumentsCall : SearchFilter → ℕ → Except String (List MedicalDocument)

/-- The error envelope of the handler's outer catch. -/
def searchErrorResponse (e : String) : SearchResponse :=
  { success := false, error := some e }

/-- `DocumentTools.handleSearchDocuments(args)`: database-state probes with
early returns, a test embedding generation, then try vector search; on
failure try text search; on failure list documents by the metadata filter
alone at fixed score `0.5` with the document's entity list; an exception
of the listing itself reaches the outer catch. -/
def handleSearchDocuments (deps : SearchToolDeps) (query : String)
    (limitArg : Option ℕ) (thresholdArg : Option ℚ) (filter : SearchFilter) :
    SearchResponse :=
  let limit := jsOrNat limitArg 10
  let threshold := jsOrQ thresholdArg 0.3
  match deps.countDocuments with
  | .error e => searchErrorResponse e
  | .ok totalDocs =>
    if totalDocs = 0 then
      { success := true, message := some "No documents in database" }
    else
      match deps.countWithEmbeddings with
      | .error e => searchErrorResponse e
      | .ok docsWithEmbeddings =>
        if docsWithEmbeddings = 0 then
          { success := true, message := some "No documents have embeddings" }
        else
          match deps.generateQueryEmbedding query with
          | .error e =>
            { success := false,
              error := some ("Embedding generation failed: " ++ e) }
          | .ok _ =>
            let searchResults : Except String (List SearchResult) :=
              match deps.generateQueryEmbedding query with
              | .ok queryEmbedding =>
                match deps.vectorSearchCall queryEmbedding limit threshold
                    filter with
                | .ok rs => .ok rs
                | .error _ =>
                  match deps.textSearchCall query limit filter with
                  | .ok rs => .ok rs
                  | .error _ =>
                    (deps.findDocumentsCall filter limit).map
                      (fun docs => docs.map
                        (fun d => ⟨d, 0.5, d.medicalEntities⟩))
              | .error _ =>
                match deps.textSearchCall query limit filter with
                | .ok rs => .ok rs
                | .error _ =>
                  (deps.findDocumentsCall filter limit).map
                    (fun docs => docs.map
                      (fun d => ⟨d, 0.5, d.medicalEntities⟩))
            match searchResults with
            | .error e => searchErrorResponse e
            | .ok rs =>
              { success := true, resultsCount := rs.length,
                results := rs.map formatResult }

/-! ## Concrete fixtures (used by witnesses and counterexamples) -/

/-- A document with no entities, not mentioning "aspirin" anywhere. -/
def docA : MedicalDocument :=
  { _id := "a", title := "cardiology note",
    content := "patient takes beta blockers" }

/-- A second document with a distinct id. -/
def docB : MedicalDocument :=
  { _id := "b", title := "lab report", content := "glucose elevated" }

/-- A numbered fixture entity. -/
def entFixture (i : ℕ) : MedicalEntity :=
  { text := "e" ++ toString i, label := "CONDITION", confidence := 0.9,
    start := i, endPos := i + 1 }

/-- A document with six entities (more than the 5-entity formatting cap). -/
def docSixEntities : MedicalDocument :=
  { _id := "c", title := "note", content := "text",
    medicalEntities :=
      [entFixture 0, entFixture 1, entFixture 2, entFixture 3, entFixture 4,
        entFixture 5] }

/-- Storage whose ANN stage throws; the collection scan succeeds with one
document that does not mention "aspirin". -/
def stVectorFail : Storage :=
  { vsAgg := fun _ _ _ => .error "index missing",
    tsAgg := fun _ => .ok [],
    collectionFind := .ok [docA] }

/-- Storage where both aggregation stages succeed with one candidate
each. -/
def stFuse : Storage :=
  { vsAgg := fun _ _ _ => .ok [⟨docA, 0.8⟩],
    tsAgg := fun _ => .ok [⟨docB, 0.6⟩],
    collectionFind := .ok [docA, docB] }

/-- Storage whose collection scan itself throws. -/
def stFindFail : Storage :=
  { vsAgg := fun _ _ _ => .error "index missing",
    tsAgg := fun _ => .error "search index missing",
    collectionFind := .error "storage unreachable" }

/-- A vector search result for `docA` with score 0.8. -/
def vResA : SearchResult := ⟨docA, 0.8, []⟩

/-- A lexical search result for the same document with score 0.6. -/
def tResA : SearchResult := ⟨docA, 0.6, []⟩

/-- The fused entry for `docA` produced from `vResA` and `tResA` at
weights 0.7/0.3. -/
def fusedA : SearchResult :=
  ⟨docA, vResA.score * 0.7 + tResA.score * 0.3, []⟩

/-- 60 words `w0 … w59` separated by single spaces (length ≥ 100). -/
def textW : String :=
  joinSpace ((List.range 60).map (fun i => "w" ++ toString i))

/-- An embedding collaborator whose first call fails and all later calls
succeed. -/
def embedFailFirst : ℕ → Option (List ℚ) :=
  fun i => if i = 0 then none else some [1]

/-- Collaborators for `handleSearchDocuments` where both search calls
reject and the listing returns the six-entity document. -/
def depsFallback : SearchToolDeps :=
  { countDocuments := .ok 2,
    countWithEmbeddings := .ok 2,
    generateQueryEmbedding := fun _ => .ok [1, 0],
    vectorSearchCall := fun _ _ _ _ => .error "vector transport error",
    textSearchCall := fun _ _ _ => .error "text transport error",
    findDocumentsCall := fun _ _ => .ok [docSixEntities] }

/-! # Theorems -/

/-! ## Chunking (C1, C7) -/

theorem wsRuns_ne_nil (l : List Char) (acc : List Char) (hacc : acc ≠ []) :
    wsRuns acc l ≠ [] := by
  induction l generalizing acc with
  | nil => simp [wsRuns, hacc]
  | cons c rest ih =>
    by_cases hc : jsWhite c
    · simp [wsRuns, hc, List.isEmpty_iff, hacc]
    · exact (by simpa [wsRuns, hc] using ih (c :: acc) (by simp))

theorem jsSplitWs_ne_nil (s : String) : jsSplitWs s ≠ [] := by
  unfold jsSplitWs
  match h : s.data with
  | [] => simp
  | c :: rest =>
    by_cases hc : jsWhite c
    · simp [hc]
    · have hne : wsRuns [] (c :: rest) ≠ [] := by
        have := wsRuns_ne_nil rest [c] (by simp)
        simpa [wsRuns, hc] using this
      simp only [hc, if_neg, Bool.false_eq_true, List.nil_append]
      intro hcontra
      rcases List.append_eq_nil.mp hcontra with ⟨h1, _⟩
      exact hne (List.map_eq_nil_iff.mp h1)

theorem jsSplitWs_length_pos (s : String) :
    0 < (jsSplitWs s).length :=
  List.length_pos.mpr (jsSplitWs_ne_nil s)

theorem chunkIdx_nonpos (step : ℤ) (hstep : step ≤ 0) :
    ∀ n, chunkIdx step n ≤ 0 := by
  intro n
  induction n with
  | zero => simp [chunkIdx]
  | succ n ih => simpa [chunkIdx] using add_nonpos ih hstep

/-- C1.  The claim (and the spec) require `chunkText` to fail fast with a
configuration error when `overlap ≥ chunkSize`.  The source has no such
guard: the loop index never advances past `0`, the guard
`i < words.length` never fails (`words` is never empty since
`"".split(/\s+/)` is `[""]`), and the loop never terminates — `chunkText`
has no error path at all (its result type is a plain string list).  This
theorem establishes the non-termination, refuting the code side of the
claim. -/
theorem chunkText_no_guard_loops_forever (text : String)
    (chunkSize overlap : ℤ) (h : overlap ≥ chunkSize) :
    ¬ chunkTextTerminates text chunkSize overlap := by
  rintro ⟨n, hn⟩
  apply hn
  calc chunkIdx (chunkSize - overlap) n
      ≤ 0 := chunkIdx_nonpos _ (by omega) n
    _ < ((jsSplitWs text).length : ℤ) := by
        exact_mod_cast jsSplitWs_length_pos text

/-- Witness for `chunkText_no_guard_loops_forever`: the concrete call
`chunkText("a b c", 3, 3)` never terminates. -/
theorem chunkText_no_guard_loops_forever_witness :
    ¬ chunkTextTerminates "a b c" 3 3 :=
  chunkText_no_guard_loops_forever "a b c" 3 3 (by norm_num)

/-- C7.  With the minimum-length emission filter disabled,
`chunkText("w1 w2 w3 w4 w5 w6", chunkSize = 3, overlap = 1)` produces
exactly the three windows `["w1 w2 w3", "w3 w4 w5", "w5 w6"]`: the loop
advances by `chunkSize - overlap = 2` words, successive windows share one
word, and the last window is the short tail. -/
theorem chunkText_windowing_example :
    chunkTextWith (fun _ => true) "w1 w2 w3 w4 w5 w6" 3 1 =
      ["w1 w2 w3", "w3 w4 w5", "w5 w6"] := by
  decide

/-! ## The fusion map (C2, C3) -/

theorem alookup_nil (x : String) : alookup [] x = none := rfl

theorem alookup_cons (p : String × SearchResult) (m : ResultMap) (x : String) :
    alookup (p :: m) x = if p.1 = x then some p.2 else alookup m x := by
  by_cases h : p.1 = x <;> simp [alookup, List.find?_cons, h]

theorem alookup_mapSet (m : ResultMap) (k : String) (v : SearchResult)
    (x : String) :
    alookup (mapSet m k v) x = if x = k then some v else alookup m x := by
  induction m with
  | nil =>
    by_cases hx : x = k
    · simp [mapSet, alookup_cons, alookup_nil, hx]
    · simp [mapSet, alookup_cons, alookup_nil, hx, Ne.symm hx]
  | cons p rest ih =>
    by_cases hpk : p.1 = k
    · simp only [mapSet, hpk, beq_self_eq_true, if_true]
      by_cases hx : x = k
      · simp [alookup_cons, hx]
      · simp [alookup_cons, hx, Ne.symm hx, hpk]
    · simp only [mapSet, beq_iff_eq, hpk, if_false]
      by_cases hx : x = k
      · subst hx
        simp [alookup_cons, hpk, ih]
      · by_cases hpx : p.1 = x <;> simp [alookup_cons, hpx, ih, hx]

theorem mem_keys_mapSet {m : ResultMap} {k : String} {v : SearchResult}
    {x : String} (h : x ∈ (mapSet m k v).map Prod.fst) :
    x ∈ m.map Prod.fst ∨ x = k := by
  induction m with
  | nil => simpa [mapSet] using h
  | cons p rest ih =>
    by_cases hpk : p.1 = k
    · simp only [mapSet, hpk, beq_self_eq_true, if_true] at h
      rcases (by simpa using h) with h | h
      · exact Or.inr h
      · exact Or.inl (by simp; exact Or.inr (by simpa using h))
    · simp only [mapSet, beq_iff_eq, hpk, if_false] at h
      rcases (by simpa using h) with h | h
      · exact Or.inl (by simp [h])
      · rcases ih (by simpa using h) with h' | h'
        · exact Or.inl (by simp at h' ⊢; exact Or.inr h')
        · exact Or.inr h'

theorem nodup_keys_mapSet {m : ResultMap} {k : String} {v : SearchResult}
    (h : (m.map Prod.fst).Nodup) : ((mapSet m k v).map Prod.fst).Nodup := by
  induction m with
  | nil => simp [mapSet]
  | cons p rest ih =>
    rw [List.map_cons, List.nodup_cons] at h
    by_cases hpk : p.1 = k
    · simp only [mapSet, hpk, beq_self_eq_true, if_true, List.map_cons,
        List.nodup_cons]
      exact ⟨by rw [← hpk]; exact h.1, h.2⟩
    · simp only [mapSet, beq_iff_eq, hpk, if_false, List.map_cons,
        List.nodup_cons]
      refine ⟨fun hmem => ?_, ih h.2⟩
      rcases mem_keys_mapSet hmem with h' | h'
      · exact h.1 h'
      · exact hpk h'

/-- The invariant tying every stored value to its key. -/
def kvOk (m : ResultMap) : Prop := ∀ p ∈ m, p.2.document._id = p.1

theorem kvOk_nil : kvOk [] := by intro p hp; cases hp

theorem kvOk_mapSet {m : ResultMap} {k : String} {v : SearchResult}
    (h : kvOk m) (hv : v.document._id = k) : kvOk (mapSet m k v) := by
  induction m with
  | nil =>
    intro p hp
    simp [mapSet] at hp
    simp [hp, hv]
  | cons q rest ih =>
    by_cases hqk : q.1 = k
    · simp only [mapSet, hqk, beq_self_eq_true, if_true]
      intro p hp
      rcases List.mem_cons.mp hp with h' | h'
      · simp [h', hv]
      · exact h p (List.mem_cons_of_mem _ h')
    · simp only [mapSet, beq_iff_eq, hqk, if_false]
      intro p hp
      rcases List.mem_cons.mp hp with h' | h'
      · exact h p (by simp [h'])
      · exact ih (fun q' hq' => h q' (List.mem_cons_of_mem _ hq')) p h'

theorem alookup_kvOk {m : ResultMap} {k : String} {v : SearchResult}
    (h : kvOk m) (hl : alookup m k = some v) : v.document._id = k := by
  unfold alookup at hl
  rcases Option.map_eq_some'.mp hl with ⟨p, hp, rfl⟩
  have h1 : p.1 = k := by simpa using List.find?_some hp
  have h2 : p ∈ m := List.mem_of_find?_eq_some hp
  rw [h p h2, h1]

theorem alookup_of_mem {m : ResultMap} {k : String} {v : SearchResult}
    (hnd : (m.map Prod.fst).Nodup) (hm : (k, v) ∈ m) :
    alookup m k = some v := by
  induction m with
  | nil => cases hm
  | cons p rest ih =>
    rw [List.map_cons, List.nodup_cons] at hnd
    rcases List.mem_cons.mp hm with h | h
    · simp [alookup_cons, ← h]
    · have hk : k ∈ rest.map Prod.fst :=
        List.mem_map.mpr ⟨(k, v), h, rfl⟩
      have hp1 : p.1 ≠ k := fun he => hnd.1 (he ▸ hk)
      rw [alookup_cons, if_neg hp1]
      exact ih hnd.2 h

/-- Generic preservation of an invariant along a left fold. -/
theorem foldl_inv {α : Type} {P : ResultMap → Prop}
    (step : ResultMap → α → ResultMap)
    (hstep : ∀ m a, P m → P (step m a)) :
    ∀ (l : List α) (m : ResultMap), P m → P (l.foldl step m) := by
  intro l
  induction l with
  | nil => intro m hm; simpa using hm
  | cons a rest ih => intro m hm; exact ih _ (hstep m a hm)

/-- Keys stay duplicate-free and values stay keyed by their own document id
through the whole fusion of `hybridSearch`. -/
theorem fusedMap_invariant (vw tw : ℚ) (vr tr : List SearchResult) :
    ((mergeText tw tr (seedVector vw vr)).map Prod.fst).Nodup ∧
      kvOk (mergeText tw tr (seedVector vw vr)) := by
  have hP : ∀ m : ResultMap, ((m.map Prod.fst).Nodup ∧ kvOk m) →
      ∀ r : SearchResult,
        (((mapSet m r.document._id
              { r with score := r.score * vw }).map Prod.fst).Nodup ∧
          kvOk (mapSet m r.document._id { r with score := r.score * vw })) :=
    fun m hm r => ⟨nodup_keys_mapSet hm.1, kvOk_mapSet hm.2 rfl⟩
  have hseed : ((seedVector vw vr).map Prod.fst).Nodup ∧
      kvOk (seedVector vw vr) := by
    unfold seedVector
    exact @foldl_inv _ (fun m => (m.map Prod.fst).Nodup ∧ kvOk m) _
      (fun m r hm => hP m hm r) vr [] ⟨by simp, kvOk_nil⟩
  unfold mergeText
  refine @foldl_inv _ (fun m => (m.map Prod.fst).Nodup ∧ kvOk m) _
    (fun m r hm => ?_) tr _ hseed
  cases hl : alookup m r.document._id with
  | some ex =>
    simp only [hl]
    have hid : ex.document._id = r.document._id := alookup_kvOk hm.2 hl
    exact ⟨nodup_keys_mapSet hm.1, kvOk_mapSet hm.2 hid⟩
  | none =>
    simp only [hl]
    exact ⟨nodup_keys_mapSet hm.1, kvOk_mapSet hm.2 rfl⟩

/-- A fold step that only writes other keys leaves a lookup unchanged
(seed pass). -/
theorem alookup_seed_skip (vw : ℚ) (x : String) :
    ∀ (vr : List SearchResult) (m : ResultMap),
      (∀ r ∈ vr, r.document._id ≠ x) →
      alookup
        (vr.foldl
          (fun m r => mapSet m r.document._id { r with score := r.score * vw })
          m) x = alookup m x := by
  intro vr
  induction vr with
  | nil => intro m _; rfl
  | cons r rest ih =>
    intro m hx
    rw [List.foldl_cons, ih _ (fun r' hr' => hx r' (List.mem_cons_of_mem _ hr')),
      alookup_mapSet, if_neg]
    exact fun he => hx r (List.mem_cons_self _ _) (he ▸ rfl)

/-- Lookup characterization of the seeding pass of `hybridSearch`: with
duplicate-free vector ids, the map holds exactly the vector results with
vector-weighted scores. -/
theorem alookup_seed_fold (vw : ℚ) (x : String) :
    ∀ (vr : List SearchResult) (m : ResultMap),
      (vr.map (fun r => r.document._id)).Nodup →
      alookup
        (vr.foldl
          (fun m r => mapSet m r.document._id { r with score := r.score * vw })
          m) x =
        match vr.find? (fun r => r.document._id == x) with
        | some r => some { r with score := r.score * vw }
        | none => alookup m x := by
  intro vr
  induction vr with
  | nil => intro m _; rfl
  | cons r rest ih =>
    intro m hnd
    rw [List.map_cons, List.nodup_cons] at hnd
    rw [List.foldl_cons]
    by_cases hrx : r.document._id = x
    · have hrest : ∀ r' ∈ rest, r'.document._id ≠ x := by
        intro r' hr' he
        exact hnd.1 (hrx ▸ he ▸ List.mem_map.mpr ⟨r', hr', rfl⟩)
      rw [alookup_seed_skip vw x rest _ hrest, alookup_mapSet, if_pos hrx.symm,
        List.find?_cons_of_pos _ (by simpa using hrx)]
    · rw [ih _ hnd.2, List.find?_cons_of_neg _ (by simpa using hrx)]
      cases hfind : rest.find? (fun r' => r'.document._id == x) with
      | some r' => simp [hfind]
      | none =>
        simp only [hfind]
        rw [alookup_mapSet, if_neg (fun he => hrx he.symm)]

theorem alookup_seedVector (vw : ℚ) (x : String) (vr : List SearchResult)
    (hnd : (vr.map (fun r => r.document._id)).Nodup) :
    alookup (seedVector vw vr) x =
      (vr.find? (fun r => r.document._id == x)).map
        (fun r => { r with score := r.score * vw }) := by
  unfold seedVector
  rw [alookup_seed_fold vw x vr [] hnd]
  cases hfind : vr.find? (fun r => r.document._id == x) <;>
    simp [hfind, alookup_nil]

/-- A fold step that only writes other keys leaves a lookup unchanged
(merge pass). -/
theorem alookup_merge_skip (tw : ℚ) (x : String) :
    ∀ (tr : List SearchResult) (m : ResultMap),
      (∀ r ∈ tr, r.document._id ≠ x) →
      alookup (mergeText tw tr m) x = alookup m x := by
  intro tr
  induction tr with
  | nil => intro m _; rfl
  | cons r rest ih =>
    intro m hx
    have hrest := fun r' hr' => hx r' (List.mem_cons_of_mem _ hr')
    have hne : ¬ x = r.document._id :=
      fun he => hx r (List.mem_cons_self _ _) (he ▸ rfl)
    cases hl : alookup m r.document._id with
    | some ex =>
      have h1 : mergeText tw (r :: rest) m = mergeText tw rest
          (mapSet m r.document._id
            { ex with score := ex.score + r.score * tw }) := by
        unfold mergeText
        simp only [List.foldl_cons, hl]
      rw [h1, ih _ hrest, alookup_mapSet, if_neg hne]
    | none =>
      have h1 : mergeText tw (r :: rest) m = mergeText tw rest
          (mapSet m r.document._id { r with score := r.score * tw }) := by
        unfold mergeText
        simp only [List.foldl_cons, hl]
      rw [h1, ih _ hrest, alookup_mapSet, if_neg hne]

/-- Lookup characterization of the merge pass of `hybridSearch`: a text
result boosts the existing entry's score by `score * tw`, or is inserted
text-weighted. -/
theorem alookup_mergeText (tw : ℚ) (x : String) :
    ∀ (tr : List SearchResult) (m : ResultMap),
      (tr.map (fun r => r.document._id)).Nodup →
      alookup (mergeText tw tr m) x =
        match tr.find? (fun r => r.document._id == x) with
        | some t =>
          match alookup m x with
          | some ex => some { ex with score := ex.score + t.score * tw }
          | none => some { t with score := t.score * tw }
        | none => alookup m x := by
  intro tr
  induction tr with
  | nil => intro m _; rfl
  | cons r rest ih =>
    intro m hnd
    rw [List.map_cons, List.nodup_cons] at hnd
    by_cases hrx : r.document._id = x
    · subst hrx
      have hrest : ∀ r' ∈ rest, r'.document._id ≠ r.document._id := by
        intro r' hr' he
        exact hnd.1 (he ▸ List.mem_map.mpr ⟨r', hr', rfl⟩)
      rw [List.find?_cons_of_pos _ (by simp)]
      cases hl : alookup m r.document._id with
      | some ex =>
        have h1 : mergeText tw (r :: rest) m = mergeText tw rest
            (mapSet m r.document._id
              { ex with score := ex.score + r.score * tw }) := by
          unfold mergeText
          simp only [List.foldl_cons, hl]
        rw [h1, alookup_merge_skip tw _ rest _ hrest, alookup_mapSet,
          if_pos rfl]
      | none =>
        have h1 : mergeText tw (r :: rest) m = mergeText tw rest
            (mapSet m r.document._id { r with score := r.score * tw }) := by
          unfold mergeText
          simp only [List.foldl_cons, hl]
        rw [h1, alookup_merge_skip tw _ rest _ hrest, alookup_mapSet,
          if_pos rfl]
    · rw [List.find?_cons_of_neg _ (by simpa using hrx)]
      cases hl : alookup m r.document._id with
      | some ex =>
        have h1 : mergeText tw (r :: rest) m = mergeText tw rest
            (mapSet m r.document._id
              { ex with score := ex.score + r.score * tw }) := by
          unfold mergeText
          simp only [List.foldl_cons, hl]
        have hm : alookup (mapSet m r.document._id
            { ex with score := ex.score + r.score * tw }) x = alookup m x := by
          rw [alookup_mapSet, if_neg (fun he => hrx he.symm)]
        rw [h1, ih _ hnd.2, hm]
      | none =>
        have h1 : mergeText tw (r :: rest) m = mergeText tw rest
            (mapSet m r.document._id { r with score := r.score * tw }) := by
          unfold mergeText
          simp only [List.foldl_cons, hl]
        have hm : alookup (mapSet m r.document._id
            { r with score := r.score * tw }) x = alookup m x := by
          rw [alookup_mapSet, if_neg (fun he => hrx he.symm)]
        rw [h1, ih _ hnd.2, hm]

theorem mem_fused_of_mem_hybridFuse {vr tr : List SearchResult} {vw tw : ℚ}
    {lim : ℕ} {e : SearchResult} (he : e ∈ hybridFuse vr tr vw tw lim) :
    e ∈ (mergeText tw tr (seedVector vw vr)).map Prod.snd := by
  unfold hybridFuse at he
  exact (List.perm_insertionSort _ _).subset ((List.take_sublist _ _).subset he)

theorem alookup_of_mem_values {vw tw : ℚ} {vr tr : List SearchResult}
    {e : SearchResult}
    (he : e ∈ (mergeText tw tr (seedVector vw vr)).map Prod.snd) :
    alookup (mergeText tw tr (seedVector vw vr)) e.document._id = some e := by
  obtain ⟨p, hp, hpe⟩ := List.mem_map.mp he
  obtain ⟨hnd, hkv⟩ := fusedMap_invariant vw tw vr tr
  have hk : p.1 = e.document._id := by rw [← hpe]; exact (hkv p hp).symm
  have hpair : (e.document._id, e) ∈ mergeText tw tr (seedVector vw vr) := by
    have : p = (e.document._id, e) := by
      cases p with
      | mk a b =>
        simp only at hk hpe
        rw [hk, hpe]
    exact this ▸ hp
  exact alookup_of_mem hnd hpair

/-- C2.  In the hybrid fusion a document id present in both the vector
result list and the lexical result list receives the **sum**
`vectorScore * vectorWeight + lexicalScore * textWeight`; a document found
by only one strategy receives only its own weighted score.  (Ids within
each input list are unique, as storage returns each document at most
once per query.) -/
theorem hybridFuse_weighted_score_addition (vr tr : List SearchResult)
    (vw tw : ℚ) (lim : ℕ) (x : String)
    (hv : (vr.map (fun r => r.document._id)).Nodup)
    (ht : (tr.map (fun r => r.document._id)).Nodup) :
    (∀ v t, vr.find? (fun r => r.document._id == x) = some v →
      tr.find? (fun r => r.document._id == x) = some t →
      ∀ e ∈ hybridFuse vr tr vw tw lim, e.document._id = x →
        e.score = v.score * vw + t.score * tw) ∧
    (∀ v, vr.find? (fun r => r.document._id == x) = some v →
      tr.find? (fun r => r.document._id == x) = none →
      ∀ e ∈ hybridFuse vr tr vw tw lim, e.document._id = x →
        e.score = v.score * vw) ∧
    (∀ t, vr.find? (fun r => r.document._id == x) = none →
      tr.find? (fun r => r.document._id == x) = some t →
      ∀ e ∈ hybridFuse vr tr vw tw lim, e.document._id = x →
        e.score = t.score * tw) := by
  have key : ∀ e ∈ hybridFuse vr tr vw tw lim, e.document._id = x →
      alookup (mergeText tw tr (seedVector vw vr)) x = some e := by
    intro e he hex
    rw [← hex]
    exact alookup_of_mem_values (mem_fused_of_mem_hybridFuse he)
  refine ⟨?_, ?_, ?_⟩
  · intro v t hfv hft e he hex
    have h1 := key e he hex
    rw [alookup_mergeText tw x tr _ ht, hft, alookup_seedVector vw x vr hv,
      hfv] at h1
    simp only [Option.map_some', Option.some.injEq] at h1
    rw [← h1]
  · intro v hfv hft e he hex
    have h1 := key e he hex
    rw [alookup_mergeText tw x tr _ ht, hft, alookup_seedVector vw x vr hv,
      hfv] at h1
    simp only [Option.map_some', Option.some.injEq] at h1
    rw [← h1]
  · intro t hfv hft e he hex
    have h1 := key e he hex
    rw [alookup_mergeText tw x tr _ ht, hft, alookup_seedVector vw x vr hv,
      hfv] at h1
    simp only [Option.map_none', Option.some.injEq] at h1
    rw [← h1]

/-- Witness for `hybridFuse_weighted_score_addition`: a document scoring
0.8 in vector search and 0.6 in lexical search, with weights 0.7/0.3,
is fused to score `0.8*0.7 + 0.6*0.3 = 0.74`. -/
theorem hybridFuse_weighted_score_addition_witness :
    fusedA ∈ hybridFuse [vResA] [tResA] 0.7 0.3 10 ∧
    fusedA.score = vResA.score * 0.7 + tResA.score * 0.3 ∧
    fusedA.score = 0.74 := by
  have hmem : fusedA ∈ hybridFuse [vResA] [tResA] 0.7 0.3 10 :=
    List.mem_cons_self _ _
  refine ⟨hmem, ?_, by norm_num [fusedA, vResA, tResA]⟩
  exact (hybridFuse_weighted_score_addition [vResA] [tResA] 0.7 0.3 10 "a"
    (by decide) (by decide)).1 vResA tResA rfl rfl fusedA hmem rfl

/-- The terminal fallback cannot return one document twice (collection
scans return each document at most once). -/
theorem textSearchFallback_nodup_ids (st : Storage) (q : String) (lim : ℕ)
    (hfind : ∀ docs, st.collectionFind = .ok docs →
      (docs.map (fun d => d._id)).Nodup) :
    ((textSearchFallback st q lim).map (fun r => r.document._id)).Nodup := by
  unfold textSearchFallback
  cases hc : st.collectionFind with
  | error e => simp
  | ok docs =>
    rw [List.map_map]
    exact List.Nodup.sublist
      (((List.take_sublist _ _).trans (List.filter_sublist _)).map _)
      (hfind docs hc)

/-- Vector search cannot return one document twice. -/
theorem vectorSearch_nodup_ids (st : Storage) (emb : List ℚ) (lim : ℕ)
    (t : ℚ) (f : Option SearchFilter)
    (hvs : ∀ e nc il cands, st.vsAgg e nc il = .ok cands →
      (cands.map (fun c => c.doc._id)).Nodup)
    (hfind : ∀ docs, st.collectionFind = .ok docs →
      (docs.map (fun d => d._id)).Nodup) :
    ((vectorSearch st emb lim t f).map (fun r => r.document._id)).Nodup := by
  unfold vectorSearch
  cases hc : st.vsAgg emb (max (lim * 10) 100) (lim * 2) with
  | error e => exact textSearchFallback_nodup_ids st "" lim hfind
  | ok cands =>
    have hnd := hvs _ _ _ _ hc
    cases f with
    | none =>
      rw [List.map_map]
      exact List.Nodup.sublist
        (((List.take_sublist _ _).trans (List.filter_sublist _)).map _) hnd
    | some flt =>
      rw [List.map_map]
      exact List.Nodup.sublist
        (((List.take_sublist _ _).trans
          ((List.filter_sublist _).trans (List.filter_sublist _))).map _) hnd

/-- The fusion map itself never yields two entries with one id, whatever
the input result lists are. -/
theorem hybridFuse_nodup_ids (vr tr : List SearchResult) (vw tw : ℚ)
    (lim : ℕ) :
    ((hybridFuse vr tr vw tw lim).map (fun r => r.document._id)).Nodup := by
  obtain ⟨hnd, hkv⟩ := fusedMap_invariant vw tw vr tr
  have hids : ((mergeText tw tr (seedVector vw vr)).map Prod.snd).map
      (fun r => r.document._id) =
      (mergeText tw tr (seedVector vw vr)).map Prod.fst := by
    rw [List.map_map]
    exact List.map_congr_left (fun p hp => hkv p hp)
  have hvals : (((mergeText tw tr (seedVector vw vr)).map Prod.snd).map
      (fun r => r.document._id)).Nodup := by rw [hids]; exact hnd
  have hperm := ((List.perm_insertionSort
    (fun a b : SearchResult => b.score ≤ a.score)
    ((mergeText tw tr (seedVector vw vr)).map Prod.snd)).map
      (fun r => r.document._id))
  have hsorted := hperm.symm.nodup hvals
  unfold hybridFuse
  exact List.Nodup.sublist ((List.take_sublist _ _).map _) hsorted

/-- C3.  `hybridSearch` never returns two entries with the same document
id, on the normal fusion path unconditionally, and on the degraded paths
provided the storage returns each stored document at most once per query
(the `Nodup` hypotheses, which a MongoDB collection with unique `_id`
satisfies). -/
theorem hybridSearch_no_duplicate_ids (st : Storage)
    (hvs : ∀ e nc il cands, st.vsAgg e nc il = .ok cands →
      (cands.map (fun c => c.doc._id)).Nodup)
    (hfind : ∀ docs, st.collectionFind = .ok docs →
      (docs.map (fun d => d._id)).Nodup)
    (query : String) (emb : List ℚ) (lim : ℕ) (vw tw : ℚ)
    (filter : Option SearchFilter) :
    ((hybridSearch st query emb lim vw tw filter).map
      (fun r => r.document._id)).Nodup := by
  unfold hybridSearch
  cases hc : st.hybridCrash with
  | true =>
    simp only [if_true]
    exact vectorSearch_nodup_ids st emb lim 0.5 filter hvs hfind
  | false =>
    simp only [Bool.false_eq_true, if_false]
    exact hybridFuse_nodup_ids _ _ vw tw lim

/-- Witness for `hybridSearch_no_duplicate_ids` at a concrete storage. -/
theorem hybridSearch_no_duplicate_ids_witness :
    ((hybridSearch stFuse "q" [] 10 0.7 0.3 none).map
      (fun r => r.document._id)).Nodup :=
  hybridSearch_no_duplicate_ids stFuse
    (by intro e nc il cands h; cases h; decide)
    (by intro docs h; cases h; decide)
    "q" [] 10 0.7 0.3 none

/-! ## Fallback behaviour of vectorSearch (C4) -/

/-- C4 (amended).  When the storage ANN stage fails, `vectorSearch` falls
back to the terminal regex scan invoked with the **empty string** — the
original query text is not in scope in `vectorSearch` (it only receives
the embedding) and is not used. -/
theorem vectorSearch_failure_uses_empty_query (st : Storage) (emb : List ℚ)
    (limit : ℕ) (threshold : ℚ) (filter : Option SearchFilter) (e : String)
    (h : st.vsAgg emb (max (limit * 10) 100) (limit * 2) = .error e) :
    vectorSearch st emb limit threshold filter =
      textSearchFallback st "" limit := by
  unfold vectorSearch
  simp only [h]

/-- Witness for `vectorSearch_failure_uses_empty_query`. -/
theorem vectorSearch_failure_uses_empty_query_witness :
    vectorSearch stVectorFail [] 10 0.7 none =
      textSearchFallback stVectorFail "" 10 :=
  vectorSearch_failure_uses_empty_query stVectorFail [] 10 0.7 none
    "index missing" rfl

/-- Counterexample to C4 as stated: with the ANN stage failing, the query
"aspirin", and a store whose only document never mentions "aspirin",
`vectorSearch` returns that document (via the empty-string regex scan,
which matches everything), while lexical search with the original query —
at either tier — returns nothing.  So the failure path is not "lexical
search invoked with the original query text". -/
theorem vectorSearch_fallback_not_original_query :
    vectorSearch stVectorFail [] 10 0.7 none = [⟨docA, 0.3, []⟩] ∧
    textSearch stVectorFail "aspirin" 10 none = [] ∧
    textSearchFallback stVectorFail "aspirin" 10 = [] :=
  ⟨rfl, rfl, rfl⟩

/-! ## The terminal fallback tier (C5) -/

/-- C5.  `textSearchFallback` is total (never throws, by type): if the
collection scan itself fails it returns the empty list; otherwise every
returned hit carries the fixed score 0.3 and matches the query by
case-insensitive containment in title or content, and at most `limit`
hits are returned. -/
theorem textSearchFallback_terminal (st : Storage) (q : String) (lim : ℕ) :
    (∀ e, st.collectionFind = .error e → textSearchFallback st q lim = []) ∧
    (∀ docs, st.collectionFind = .ok docs →
      (∀ r ∈ textSearchFallback st q lim,
        r.score = 0.3 ∧
        (ciContains r.document.title q || ciContains r.document.content q)
          = true) ∧
      (textSearchFallback st q lim).length ≤ lim) := by
  constructor
  · intro e he
    simp [textSearchFallback, he]
  · intro docs hd
    constructor
    · intro r hr
      unfold textSearchFallback at hr
      simp only [hd] at hr
      obtain ⟨d, hdmem, rfl⟩ := List.mem_map.mp hr
      have hdf : d ∈ docs.filter
          (fun d => ciContains d.title q || ciContains d.content q) :=
        (List.take_sublist _ _).subset hdmem
      refine ⟨rfl, ?_⟩
      simpa using List.of_mem_filter hdf
    · unfold textSearchFallback
      simp only [hd]
      rw [List.length_map, List.length_take]
      exact min_le_left _ _

/-- Witness for `textSearchFallback_terminal`: a failing scan yields `[]`,
and a concrete hit for the query "beta" carries score 0.3 and matches by
containment. -/
theorem textSearchFallback_terminal_witness :
    textSearchFallback stFindFail "x" 3 = [] ∧
    ((⟨docA, 0.3, docA.medicalEntities⟩ : SearchResult).score = 0.3 ∧
      (ciContains
          (⟨docA, 0.3, docA.medicalEntities⟩ : SearchResult).document.title
          "beta" ||
        ciContains
          (⟨docA, 0.3, docA.medicalEntities⟩ : SearchResult).document.content
          "beta") = true) := by
  constructor
  · exact (textSearchFallback_terminal stFindFail "x" 3).1
      "storage unreachable" rfl
  · have hmem : (⟨docA, 0.3, docA.medicalEntities⟩ : SearchResult) ∈
        textSearchFallback stVectorFail "beta" 5 :=
      List.mem_cons_self _ _
    exact ((textSearchFallback_terminal stVectorFail "beta" 5).2 [docA]
      rfl).1 _ hmem

/-! ## Threshold monotonicity (C8) -/

/-- C8.  For a fixed query, corpus and other parameters, raising the
threshold can only shrink the result count: in `vectorSearch` the
threshold is a `$match score >= threshold` stage applied before `$limit`
on a threshold-independent candidate set, and in the hybrid handler it is
a post-filter on the threshold-independent `hybridSearch` output.
`textSearch` takes no threshold at all, so its count is constant (the
middle conjunct). -/
theorem search_threshold_monotone (st : Storage) (emb : List ℚ)
    (query : String) (limit topK : ℕ) (vw tw : ℚ)
    (filter : Option SearchFilter) (t1 t2 : ℚ) (h : t1 ≤ t2) :
    (vectorSearch st emb limit t2 filter).length ≤
      (vectorSearch st emb limit t1 filter).length ∧
    (textSearch st query limit filter).length ≤
      (textSearch st query limit filter).length ∧
    (hybridHandlerFiltered st query emb topK vw tw t2 filter).length ≤
      (hybridHandlerFiltered st query emb topK vw tw t1 filter).length := by
  refine ⟨?_, le_refl _, ?_⟩
  · unfold vectorSearch
    cases hc : st.vsAgg emb (max (limit * 10) 100) (limit * 2) with
    | error e => simp only [hc]; exact le_refl _
    | ok cands =>
      simp only [hc, List.length_map]
      rw [List.length_take, List.length_take]
      refine min_le_min (le_refl _) (List.Sublist.length_le ?_)
      refine List.monotone_filter_right _ (fun a ha => ?_)
      simp only [decide_eq_true_eq] at ha ⊢
      exact le_trans h ha
  · unfold hybridHandlerFiltered
    refine List.Sublist.length_le ?_
    refine List.monotone_filter_right _ (fun a ha => ?_)
    simp only [decide_eq_true_eq] at ha ⊢
    exact le_trans h ha

/-- Witness for `search_threshold_monotone` at concrete thresholds
0.1 ≤ 0.9 over a concrete storage. -/
theorem search_threshold_monotone_witness :
    (vectorSearch stFuse [] 10 0.9 none).length ≤
      (vectorSearch stFuse [] 10 0.1 none).length ∧
    (textSearch stFuse "q" 10 none).length ≤
      (textSearch stFuse "q" 10 none).length ∧
    (hybridHandlerFiltered stFuse "q" [] 10 0.7 0.3 0.9 none).length ≤
      (hybridHandlerFiltered stFuse "q" [] 10 0.7 0.3 0.1 none).length :=
  search_threshold_monotone stFuse [] "q" 10 10 0.7 0.3 none 0.1 0.9
    (by norm_num)

/-! ## Chunked ingestion (C6) -/

theorem chunkLoop_counts (embed : ℕ → Option (List ℚ)) (total : ℕ) :
    ∀ (l : List String) (i : ℕ),
      (chunkLoop embed total l i).1 =
        (List.range l.length).countP (fun j => (embed (i + j)).isSome) ∧
      (chunkLoop embed total l i).2.1.length =
        (List.range l.length).countP (fun j => (embed (i + j)).isSome) ∧
      (chunkLoop embed total l i).2.2.length =
        (List.range l.length).countP (fun j => (embed (i + j)).isSome) := by
  intro l
  induction l with
  | nil => intro i; simp [chunkLoop]
  | cons c rest ih =>
    intro i
    obtain ⟨h1, h2, h3⟩ := ih (i + 1)
    have hc : ((fun j => (embed (i + j)).isSome) ∘ Nat.succ) =
        (fun j => (embed ((i + 1) + j)).isSome) := by
      funext j
      simp only [Function.comp]
      congr 2
      omega
    have hr : (List.range (c :: rest).length).countP
        (fun j => (embed (i + j)).isSome) =
        (List.range rest.length).countP
          (fun j => (embed ((i + 1) + j)).isSome) +
          (if (embed i).isSome then 1 else 0) := by
      rw [List.length_cons, List.range_succ_eq_map, List.countP_cons,
        List.countP_map, hc]
      simp
    cases hemb : embed i with
    | some emb =>
      simp only [chunkLoop, hemb]
      rw [hr, hemb]
      refine ⟨?_, ?_, ?_⟩
      · rw [h1]; simp
      · rw [List.length_cons, h2]; simp
      · rw [List.length_cons, h3]; simp
    | none =>
      simp only [chunkLoop, hemb]
      rw [hr, hemb]
      exact ⟨by rw [h1]; simp, by rw [h2]; simp, by rw [h3]; simp⟩

theorem countP_isSome_range (embed : ℕ → Option (List ℚ)) (n : ℕ) :
    (List.range n).countP (fun j => (embed j).isSome) =
      n - (List.range n).countP (fun j => (embed j).isNone) := by
  have h := List.length_eq_countP_add_countP
    (fun j => (embed j).isNone) (List.range n)
  rw [List.length_range] at h
  have hc : (fun a => decide ¬((embed a).isNone = true)) =
      (fun j => (embed j).isSome) := by
    funext j
    cases embed j <;> simp
  rw [hc] at h
  omega

/-- C6.  Chunked ingestion has partial-failure semantics: on text of at
least 100 characters chunked into `n` pieces (with a terminating
configuration, `overlap < chunkSize` after defaulting), if the embedding
collaborator fails on exactly `k` of the chunk positions then the
envelope reports `success: true`, `totalChunks = n` and
`successfulChunks = n - k`, and exactly `n - k` chunk documents are
persisted. -/
theorem handleChunkAndEmbed_partial_failure (embed : ℕ → Option (List ℚ))
    (text : String) (csArg ovArg : Option ℕ)
    (hlen : 100 ≤ text.length)
    (_hstep : jsOrNat ovArg 100 < jsOrNat csArg 500) :
    (handleChunkAndEmbed embed text csArg ovArg).1.success = true ∧
    (handleChunkAndEmbed embed text csArg ovArg).1.totalChunks =
      (chunkText text (jsOrNat csArg 500) (jsOrNat ovArg 100)).length ∧
    (handleChunkAndEmbed embed text csArg ovArg).1.successfulChunks =
      (chunkText text (jsOrNat csArg 500) (jsOrNat ovArg 100)).length -
        (List.range (chunkText text (jsOrNat csArg 500)
            (jsOrNat ovArg 100)).length).countP
          (fun i => (embed i).isNone) ∧
    (handleChunkAndEmbed embed text csArg ovArg).2.length =
      (chunkText text (jsOrNat csArg 500) (jsOrNat ovArg 100)).length -
        (List.range (chunkText text (jsOrNat csArg 500)
            (jsOrNat ovArg 100)).length).countP
          (fun i => (embed i).isNone) := by
  have hnot : ¬ text.length < 100 := Nat.not_lt.mpr hlen
  obtain ⟨h1, _h2, h3⟩ := chunkLoop_counts embed
    (chunkText text (jsOrNat csArg 500) (jsOrNat ovArg 100)).length
    (chunkText text (jsOrNat csArg 500) (jsOrNat ovArg 100)) 0
  have hz : (fun j => (embed (0 + j)).isSome) =
      (fun j => (embed j).isSome) := by
    funext j
    simp
  rw [hz] at h1 h3
  refine ⟨?_, ?_, ?_, ?_⟩ <;>
    simp only [handleChunkAndEmbed, hnot, if_false]
  · rw [h1, countP_isSome_range]
  · rw [h3, countP_isSome_range]

set_option maxRecDepth 8000 in
/-- Witness for `handleChunkAndEmbed_partial_failure`: 60 words, chunk
size 50, overlap 10 give 2 chunks; the first embedding call fails, so
`totalChunks = 2`, `successfulChunks = 1`, one chunk document is
persisted, and the envelope still reports success. -/
theorem handleChunkAndEmbed_partial_failure_witness :
    (handleChunkAndEmbed embedFailFirst textW (some 50) (some 10)).1.success
        = true ∧
    (handleChunkAndEmbed embedFailFirst textW
        (some 50) (some 10)).1.totalChunks = 2 ∧
    (handleChunkAndEmbed embedFailFirst textW
        (some 50) (some 10)).1.successfulChunks = 1 ∧
    (handleChunkAndEmbed embedFailFirst textW (some 50) (some 10)).2.length
        = 1 := by
  obtain ⟨h1, h2, h3, h4⟩ := handleChunkAndEmbed_partial_failure
    embedFailFirst textW (some 50) (some 10) (by decide) (by decide)
  refine ⟨h1, ?_, ?_, ?_⟩
  · rw [h2]; decide
  · rw [h3]; decide
  · rw [h4]; decide

/-! ## Cosine similarity (C9) -/

/-- C9.  `calculateSimilarity` fails with the dimension-mismatch error on
vectors of different lengths — it never returns a number there — and on
equal lengths returns the cosine similarity
`dot(v1,v2) / (sqrt(dot(v1,v1)) * sqrt(dot(v2,v2)))`. -/
theorem calculateSimilarity_spec (v1 v2 : List ℝ) :
    (v1.length ≠ v2.length →
      calculateSimilarity v1 v2 =
        .error "Embeddings must have the same dimensions") ∧
    (v1.length = v2.length →
      calculateSimilarity v1 v2 =
        .ok (dotList v1 v2 /
          (Real.sqrt (dotList v1 v1) * Real.sqrt (dotList v2 v2)))) := by
  constructor
  · intro h
    simp [calculateSimilarity, h]
  · intro h
    simp [calculateSimilarity, h]

/-- Witness for `calculateSimilarity_spec`: a 1-vector against a 2-vector
is rejected; two 1-vectors produce the cosine formula. -/
theorem calculateSimilarity_spec_witness :
    calculateSimilarity [(1 : ℝ)] [1, 0] =
      .error "Embeddings must have the same dimensions" ∧
    calculateSimilarity [(1 : ℝ)] [(2 : ℝ)] =
      .ok (dotList [(1 : ℝ)] [(2 : ℝ)] /
        (Real.sqrt (dotList [(1 : ℝ)] [(1 : ℝ)]) *
          Real.sqrt (dotList [(2 : ℝ)] [(2 : ℝ)]))) :=
  ⟨(calculateSimilarity_spec [(1 : ℝ)] [1, 0]).1 (by simp),
    (calculateSimilarity_spec [(1 : ℝ)] [(2 : ℝ)]).2 (by simp)⟩

/-! ## handleSearchDocuments last-resort listing (C10) -/

/-- C10 (amended).  If both the vector search call and the text search
call reject, `handleSearchDocuments` lists documents through
`findDocuments(filter, limit)` — selected by the metadata filter alone,
never seeing the query — assigns each the fixed score 0.5, formats each
with at most the **first five** of the document's entities as
`relevantEntities` (the formatter caps entity lists at 5), and returns
them in an envelope with `success: true`, indistinguishable by flag or
score from a genuine search. -/
theorem handleSearchDocuments_last_resort (deps : SearchToolDeps)
    (query : String) (limitArg : Option ℕ) (thresholdArg : Option ℚ)
    (filter : SearchFilter) (n1 n2 : ℕ) (qe : List ℚ) (ev et : String)
    (docs : List MedicalDocument)
    (hc1 : deps.countDocuments = .ok n1) (hn1 : n1 ≠ 0)
    (hc2 : deps.countWithEmbeddings = .ok n2) (hn2 : n2 ≠ 0)
    (hemb : deps.generateQueryEmbedding query = .ok qe)
    (hvec : deps.vectorSearchCall qe (jsOrNat limitArg 10)
      (jsOrQ thresholdArg 0.3) filter = .error ev)
    (htext : deps.textSearchCall query (jsOrNat limitArg 10) filter
      = .error et)
    (hfind : deps.findDocumentsCall filter (jsOrNat limitArg 10)
      = .ok docs) :
    handleSearchDocuments deps query limitArg thresholdArg filter =
      { success := true, resultsCount := docs.length,
        results := docs.map
          (fun d => formatResult ⟨d, 0.5, d.medicalEntities⟩) } := by
  unfold handleSearchDocuments
  simp only [hc1, hn1, if_false, hc2, hn2, hemb, hvec, htext, hfind,
    Except.map, List.length_map, List.map_map]
  rfl

/-- Witness for `handleSearchDocuments_last_resort` at concrete
collaborators. -/
theorem handleSearchDocuments_last_resort_witness :
    handleSearchDocuments depsFallback "q" none none {} =
      { success := true, resultsCount := [docSixEntities].length,
        results := [docSixEntities].map
          (fun d => formatResult ⟨d, 0.5, d.medicalEntities⟩) } :=
  handleSearchDocuments_last_resort depsFallback "q" none none {} 2 2
    [1, 0] "vector transport error" "text transport error" [docSixEntities]
    rfl (by decide) rfl (by decide) rfl rfl rfl rfl

/-- Counterexample to C10 as stated: the claim says the last-resort
listing carries the document's **full** entity list, but the formatter
caps `relevantEntities` at 5: with a six-entity document the envelope is
`success: true` with a single result holding 5 entities, not 6. -/
theorem handleSearchDocuments_entities_capped :
    (handleSearchDocuments depsFallback "q" none none {}).success = true ∧
    (handleSearchDocuments depsFallback "q" none none {}).results.map
      (fun r => r.relevantEntities.length) = [5] ∧
    [docSixEntities].map (fun d => d.medicalEntities.length) = [6] :=
  ⟨rfl, rfl, rfl⟩

end MCP
